import Mathlib

/-!
Verification development for the OpenLead Intelligence collection pipeline
(`src/pipeline/deduplication.py`, `src/pipeline/orchestrator.py`,
`src/scoring/lead_scorer.py`, `src/models/schemas.py`, `src/utils/helpers.py`).

Scores are modelled over `ℚ` (the Python code uses IEEE floats; every constant
involved is a small decimal, and the properties checked here are stated up to
the 2-decimal rounding the pydantic validators apply).  Strings are modelled as
Lean `String`/`List Char`; Python string functions used by the code
(`str.lower`, `str.strip`, truthiness, `difflib.SequenceMatcher.ratio`) are
modelled for ASCII text, which is the domain of the company names, domains and
technology labels the pipeline manipulates.
-/

namespace OpenLead

/-- Python truthiness of an optional string field (`if company.domain:`):
`None` and the empty string are falsy, everything else truthy. -/
def pyTruthy : Option String → Bool
  | none => false
  | some s => !s.toList.isEmpty

/-- ASCII lowercase of a character, as Python `str.lower` acts on ASCII text. -/
def lowerChar (c : Char) : Char := c.toLower

/-- ASCII lowercase of a string (`str.lower` restricted to ASCII). -/
def pyLower (s : String) : String := (s.toList.map lowerChar).asString

/-- The ASCII apostrophe character, used when rendering Python string `repr`. -/
def aposChar : Char := Char.ofNat 39

/-- CPython `repr` of a string that contains no quote or backslash characters
(the technology names fed to the scorer): the text wrapped in single quotes. -/
def pyReprStr (s : String) : String :=
  String.singleton aposChar ++ s ++ String.singleton aposChar

/-- CPython `str` of a list of strings (as in `str(tech_stack.frameworks)`):
`"[" ++ repr x1 ++ ", " ++ ... ++ "]"`. -/
def pyStrList (xs : List String) : String :=
  ("[".toList ++
    List.intercalate ", ".toList (xs.map (fun s => (pyReprStr s).toList)) ++
    "]".toList).asString

/-- Python `needle in haystack` on strings: substring containment. -/
def pyInStr (needle hay : String) : Bool :=
  decide (List.IsInfix needle.toList hay.toList)

/-! ### difflib.SequenceMatcher (Python standard library)

`CompanyDeduplicator._calculate_similarity` calls
`SequenceMatcher(None, str1, str2).ratio()`.  The functions below model the
junk-free Ratcliff-Obershelp computation difflib performs: `autojunk` only
activates on sequences of length ≥ 200 and is not modelled. -/

/-- Length of the common prefix of two character lists (the length of the
matching run starting at a given pair of positions). -/
def runLen : List Char → List Char → Nat
  | a :: as, b :: bs => if a = b then runLen as bs + 1 else 0
  | _, _ => 0

/-- `difflib.SequenceMatcher.find_longest_match` on full sequences: the longest
matching block `(i, j, size)`; among maximal blocks the one starting earliest
in `a`, then earliest in `b`, matching difflib's strictly-greater update rule. -/
def findLongestMatch (a b : List Char) : Nat × Nat × Nat :=
  (List.range a.length).foldl (fun best i =>
    (List.range b.length).foldl (fun best j =>
      let k := runLen (a.drop i) (b.drop j)
      if best.2.2 < k then (i, j, k) else best) best) (0, 0, 0)

/-- Total size of all matching blocks (`sum(b.size for b in get_matching_blocks())`):
recursively take the longest match and recurse on the pieces to its left and
right.  The fuel argument is bounded by the total length; each recursive level
consumes at least one matched character, so `a.length + b.length` steps
always suffice. -/
def matchingTotalAux : Nat → List Char → List Char → Nat
  | 0, _, _ => 0
  | fuel + 1, a, b =>
    let t := findLongestMatch a b
    if t.2.2 = 0 then 0
    else
      matchingTotalAux fuel (a.take t.1) (b.take t.2.1) + t.2.2 +
        matchingTotalAux fuel (a.drop (t.1 + t.2.2)) (b.drop (t.2.1 + t.2.2))

def matchingTotal (a b : List Char) : Nat :=
  matchingTotalAux (a.length + b.length) a b

/-- `CompanyDeduplicator._calculate_similarity` (src/pipeline/deduplication.py
99-110): `SequenceMatcher(None, str1, str2).ratio()`, i.e. `2*M / T` where `M`
is the total size of the matching blocks and `T` the combined length; `1.0`
when both sequences are empty (difflib `_calculate_ratio`). -/
def calculate_similarity (str1 str2 : String) : ℚ :=
  let T := str1.toList.length + str2.toList.length
  if T = 0 then 1 else 2 * (matchingTotal str1.toList str2.toList : ℚ) / (T : ℚ)

/-! ### src/utils/helpers.py -/

/-- `extract_domain` (src/utils/helpers.py 20-50): prepend `https://` when the
scheme is missing, take `urlparse(url).netloc` (for an `http(s)` URL: the text
between `//` and the first `/`, `?` or `#`), drop a leading `www.`, and return
`None` when the result is empty. -/
def extract_domain (url : String) : Option String :=
  let chars := url.toList
  let chars2 :=
    if "http://".toList.isPrefixOf chars || "https://".toList.isPrefixOf chars then chars
    else "https://".toList ++ chars
  let afterScheme := if "http://".toList.isPrefixOf chars2 then chars2.drop 7
                     else chars2.drop 8
  let netloc := afterScheme.takeWhile (fun c => c ≠ '/' && c ≠ '?' && c ≠ '#')
  let domain := if "www.".toList.isPrefixOf netloc then netloc.drop 4 else netloc
  if !domain.isEmpty then some domain.asString else none

/-- Words of a string, splitting on maximal whitespace runs and discarding
empties: Python `text.split()`. -/
def pySplitWordsAux (cur : List Char) : List Char → List (List Char)
  | [] => if cur.isEmpty then [] else [cur.reverse]
  | c :: cs =>
    if c.isWhitespace then
      if cur.isEmpty then pySplitWordsAux [] cs else cur.reverse :: pySplitWordsAux [] cs
    else pySplitWordsAux (c :: cur) cs

def pySplitWords (s : List Char) : List (List Char) := pySplitWordsAux [] s

/-- Characters kept by `clean_text`'s character filter `[^\w\s\-.,!?()&]` →
removed; kept: word characters (ASCII letters/digits/underscore), whitespace,
and `- . , ! ? ( ) &`. -/
def keepCleanChar (c : Char) : Bool :=
  c.isAlphanum || c = '_' || c.isWhitespace ||
    c = '-' || c = '.' || c = ',' || c = '!' || c = '?' || c = '(' || c = ')' || c = '&'

/-- Python `str.strip()`: remove leading and trailing whitespace. -/
def pyStrip (s : List Char) : List Char :=
  ((s.dropWhile Char.isWhitespace).reverse.dropWhile Char.isWhitespace).reverse

/-- `clean_text` (src/utils/helpers.py 96-115): collapse whitespace runs via
`' '.join(text.split())`, delete characters outside `[\w\s\-.,!?()&]`, strip. -/
def clean_text (text : String) : String :=
  if text.toList.isEmpty then ""
  else
    (pyStrip ((List.intercalate [' '] (pySplitWords text.toList)).filter
      keepCleanChar)).asString

/-- The corporate-suffix patterns of `clean_company_name`, in source order;
each is applied as `re.sub(r'\s+CORE\.?$', '', ..., flags=IGNORECASE)` (the
`Bool` records whether the pattern allows a trailing dot; `Limited`,
`Corporation`, `Company`, `GmbH`, `AG`, `PLC` do not). -/
def suffixPatterns : List (String × Bool) :=
  [("Inc", true), ("LLC", true), ("Ltd", true), ("Limited", false),
   ("Corp", true), ("Corporation", false), ("Co", true), ("Company", false),
   ("GmbH", false), ("S.A", true), ("AG", false), ("PLC", false)]

/-- Whether the tail `t` matches `\s+CORE\.?$` in its entirety: a nonempty
whitespace run followed (case-insensitively) by the core, with an optional
final dot.  Since the core starts with a non-whitespace character, the regex's
greedy `\s+` coincides with the maximal whitespace prefix. -/
def suffixMatchesAt (core : List Char) (optDot : Bool) (t : List Char) : Bool :=
  let w := t.takeWhile Char.isWhitespace
  !w.isEmpty &&
    (let r := (t.drop w.length).map lowerChar
     let cl := core.map lowerChar
     r = cl || (optDot && r = cl ++ ['.']))

/-- One `re.sub(r'\s+CORE\.?$', '', s, flags=IGNORECASE)`: remove the leftmost
(= longest) match of the end-anchored pattern, if any.  Company names reaching
this function were stripped by the `Company.name` validator, so `$` is
end-of-string. -/
def stripSuffixPattern (core : String) (optDot : Bool) (s : List Char) : List Char :=
  match (List.range (s.length + 1)).find?
      (fun p => suffixMatchesAt core.toList optDot (s.drop p)) with
  | some p => s.take p
  | none => s

/-- `clean_company_name` (src/utils/helpers.py 118-145): sequentially strip the
corporate-suffix patterns, then `clean_text`. -/
def clean_company_name (name : String) : String :=
  if name.toList.isEmpty then ""
  else
    clean_text (suffixPatterns.foldl
      (fun acc pat => stripSuffixPattern pat.1 pat.2 acc) name.toList).asString

/-! ### src/models/schemas.py

Timestamps (`scraped_at`/`updated_at`, `last_funding_date`) and the untyped
`extra_data` map are omitted: no claim observes them.  Floats are `ℚ`. -/

inductive CompanySize
  | startup | small | medium | large | enterprise | unknown
deriving DecidableEq

inductive FundingStage
  | bootstrapped | pre_seed | seed | series_a | series_b | series_c
  | series_d_plus | ipo | acquired | unknown
deriving DecidableEq

inductive DataSource
  | product_hunt | angellist | crunchbase | clutch | job_boards | linkedin
  | manual | api | other
deriving DecidableEq

structure TechStack where
  languages : List String := []
  frameworks : List String := []
  databases : List String := []
  cloud_providers : List String := []
  tools : List String := []
  analytics : List String := []
  marketing : List String := []
deriving DecidableEq

/-- `TechStack.all_technologies` (src/models/schemas.py 61-66). -/
def TechStack.all_technologies (t : TechStack) : List String :=
  t.languages ++ t.frameworks ++ t.databases ++
    t.cloud_providers ++ t.tools ++ t.analytics ++ t.marketing

structure HiringIntent where
  total_open_positions : Int := 0
  recent_postings : Int := 0
  engineering_positions : Int := 0
  sales_positions : Int := 0
  marketing_positions : Int := 0
  hiring_velocity : ℚ := 0
  is_hiring : Bool := false
deriving DecidableEq

structure FundingInfo where
  stage : FundingStage := FundingStage.unknown
  total_funding : Option ℚ := none
  last_funding_amount : Option ℚ := none
  investors : List String := []
  valuation : Option ℚ := none
deriving DecidableEq

structure GeographicInfo where
  country : Option String := none
  region : Option String := none
  city : Option String := none
  timezone : Option String := none
  headquarters : Option String := none
deriving DecidableEq

structure SocialProfiles where
  linkedin : Option String := none
  twitter : Option String := none
  facebook : Option String := none
  github : Option String := none
  crunchbase : Option String := none
deriving DecidableEq

structure CompanyEnrichment where
  tech_stack : Option TechStack := none
  hiring_intent : Option HiringIntent := none
  funding_info : Option FundingInfo := none
  geographic_info : Option GeographicInfo := none
  social_profiles : Option SocialProfiles := none
  employee_count : Option Int := none
  company_size : CompanySize := CompanySize.unknown
  founded_year : Option Int := none
  industry : Option String := none
  tags : List String := []
deriving DecidableEq

/-- `LeadScore` (src/models/schemas.py 138-159).  The pydantic model stores
`total_score`, `intent_score`, `fit_score`, `engagement_score` and `priority`
only — it has no tech-score field. -/
structure LeadScore where
  total_score : ℚ := 0
  intent_score : ℚ := 0
  fit_score : ℚ := 0
  engagement_score : ℚ := 0
  priority : String := "low"
deriving DecidableEq

/-- `Company` (src/models/schemas.py 162-199).  `name` is the post-validation
value (the pydantic validator strips surrounding whitespace). -/
structure Company where
  name : String
  domain : Option String := none
  website : Option String := none
  description : Option String := none
  source : DataSource := DataSource.other
  source_url : Option String := none
  enrichment : Option CompanyEnrichment := none
  score : Option LeadScore := none
deriving DecidableEq

/-- `ScrapingResult` (src/models/schemas.py 243-268), the fields the
orchestrator reads. -/
structure ScrapingResult where
  success : Bool := true
  companies : List Company := []
  errors : List String := []
  warnings : List String := []
deriving DecidableEq

/-- Round half to even (Python banker's rounding) to an integer. -/
def roundHalfEven (q : ℚ) : ℤ :=
  let f := ⌊q⌋
  let r := q - (f : ℚ)
  if r < 1/2 then f
  else if 1/2 < r then f + 1
  else if f % 2 = 0 then f else f + 1

/-- Python `round(v, 2)` modelled exactly over `ℚ`. -/
def pyRound2 (q : ℚ) : ℚ := ((roundHalfEven (q * 100) : ℤ) : ℚ) / 100

/-- Construction of a `LeadScore` through the pydantic validation pipeline
(src/models/schemas.py 138-159): per field, in declaration order, the
`ge=0/le=100` constraint is checked on the incoming value, then the `after`
validator rounds it to 2 decimals; `priority` must lowercase into
{low, medium, high} and is stored lowercased. -/
def LeadScore.validate (total_score intent_score fit_score engagement_score : ℚ)
    (priority : String) : Except String LeadScore :=
  if ¬(0 ≤ total_score ∧ total_score ≤ 100) then .error "total_score out of range"
  else if ¬(0 ≤ intent_score ∧ intent_score ≤ 100) then .error "intent_score out of range"
  else if ¬(0 ≤ fit_score ∧ fit_score ≤ 100) then .error "fit_score out of range"
  else if ¬(0 ≤ engagement_score ∧ engagement_score ≤ 100) then
    .error "engagement_score out of range"
  else if ¬(pyLower priority = "low" ∨ pyLower priority = "medium" ∨
            pyLower priority = "high") then
    .error "Invalid priority"
  else
    .ok { total_score := pyRound2 total_score
          intent_score := pyRound2 intent_score
          fit_score := pyRound2 fit_score
          engagement_score := pyRound2 engagement_score
          priority := pyLower priority }

/-! ### src/scoring/lead_scorer.py

The default-weight scorer instance is modelled (`LeadScorer()` with
`DEFAULT_WEIGHTS`); the claims under verification all concern the default
weights.  The component calculators are the `_calculate_*` methods. -/

def weights_intent : ℚ := 35/100
def weights_fit : ℚ := 30/100
def weights_tech : ℚ := 20/100
def weights_engagement : ℚ := 15/100

/-- `LeadScorer._calculate_intent_score` (src/scoring/lead_scorer.py 91-116). -/
def calculate_intent_score (company : Company) : ℚ :=
  match company.enrichment with
  | none => 0
  | some e =>
    match e.hiring_intent with
    | none => 0
    | some hiring =>
      let score : ℚ := 0
      let score := if hiring.is_hiring then score + 30 else score
      let score := if 0 < hiring.total_open_positions then
          score + min ((hiring.total_open_positions : ℚ) * 5) 30 else score
      let score := if 0 < hiring.recent_postings then
          score + min ((hiring.recent_postings : ℚ) * 10) 20 else score
      let score := if 0 < hiring.hiring_velocity then
          score + min (hiring.hiring_velocity * 5) 20 else score
      min score 100

/-- The `size_scores` lookup of `_calculate_fit_score`. -/
def size_scores : CompanySize → ℚ
  | .startup => 70
  | .small => 80
  | .medium => 90
  | .large => 70
  | .enterprise => 50
  | .unknown => 40

/-- The `funding_scores` lookup of `_calculate_fit_score`;
`funding_scores.get(stage, 0)` yields 0 for stages outside the table. -/
def funding_scores : FundingStage → ℚ
  | .seed => 60
  | .series_a => 80
  | .series_b => 90
  | .series_c => 85
  | .series_d_plus => 75
  | _ => 0

/-- `LeadScorer._calculate_fit_score` (src/scoring/lead_scorer.py 118-157).
`if enrichment.employee_count:` is Python truthiness: `None` and `0` both skip
the employee-count bonus. -/
def calculate_fit_score (company : Company) : ℚ :=
  match company.enrichment with
  | none => 50
  | some enrichment =>
    let score := size_scores enrichment.company_size
    let score := match enrichment.funding_info with
      | none => score
      | some fi => (score + funding_scores fi.stage) / 2
    let score := match enrichment.employee_count with
      | none => score
      | some n =>
        if n = 0 then score
        else if 20 ≤ n ∧ n ≤ 500 then score + 10
        else if n < 20 then score + 5
        else score
    min score 100

def modern_frameworks : List String := ["React", "Vue", "Angular", "Svelte", "Next.js"]

def modern_dbs : List String := ["MongoDB", "PostgreSQL", "Redis"]

/-- `LeadScorer._calculate_tech_score` (src/scoring/lead_scorer.py 159-191).
The framework and database checks are
`any(tech in str(tech_stack.frameworks) for tech in modern_frameworks)`:
substring tests against the `str()` rendering of the list. -/
def calculate_tech_score (company : Company) : ℚ :=
  match company.enrichment with
  | none => 0
  | some e =>
    match e.tech_stack with
    | none => 0
    | some tech_stack =>
      let all_techs := tech_stack.all_technologies
      let score : ℚ := if !all_techs.isEmpty then 40 else 0
      let score := if modern_frameworks.any
          (fun tech => pyInStr tech (pyStrList tech_stack.frameworks)) then
          score + 20 else score
      let score := if !tech_stack.cloud_providers.isEmpty then score + 15 else score
      let score := if modern_dbs.any
          (fun db => pyInStr db (pyStrList tech_stack.databases)) then
          score + 15 else score
      let score := if !tech_stack.analytics.isEmpty then score + 10 else score
      min score 100

/-- `LeadScorer._calculate_engagement_score` (src/scoring/lead_scorer.py
193-220). -/
def calculate_engagement_score (company : Company) : ℚ :=
  let score : ℚ := if pyTruthy company.website || pyTruthy company.domain then 30 else 0
  let score := if pyTruthy company.description then score + 20 else score
  match company.enrichment with
  | none => score
  | some e =>
    let score := match e.social_profiles with
      | none => score
      | some profiles =>
        let score := if pyTruthy profiles.linkedin then score + 15 else score
        let score := if pyTruthy profiles.twitter then score + 10 else score
        let score := if pyTruthy profiles.github then score + 15 else score
        let score := if pyTruthy profiles.crunchbase then score + 10 else score
        score
    min score 100

/-- `LeadScorer._determine_priority` (src/scoring/lead_scorer.py 222-237). -/
def determine_priority (score : ℚ) : String :=
  if 70 ≤ score then "high"
  else if 40 ≤ score then "medium"
  else "low"

/-- The weighted total computed in `LeadScorer.score` before the `LeadScore`
object is constructed. -/
def raw_total_score (company : Company) : ℚ :=
  calculate_intent_score company * weights_intent +
    calculate_fit_score company * weights_fit +
    calculate_tech_score company * weights_tech +
    calculate_engagement_score company * weights_engagement

namespace LeadScorer

/-- `LeadScorer.score` (src/scoring/lead_scorer.py 52-89): compute the four
component scores, the weighted total and the priority, then construct
`LeadScore(total_score=..., intent_score=..., fit_score=...,
engagement_score=..., priority=...)` — the tech score is not passed.  The
pydantic constructor validates and stores each score rounded to 2 decimals and
the priority lowercased (theorem `score_validates` shows validation always
succeeds, so the constructed object is exactly this one). -/
def score (company : Company) : LeadScore :=
  let intent_score := calculate_intent_score company
  let fit_score := calculate_fit_score company
  let engagement_score := calculate_engagement_score company
  let total_score := raw_total_score company
  let priority := determine_priority total_score
  { total_score := pyRound2 total_score
    intent_score := pyRound2 intent_score
    fit_score := pyRound2 fit_score
    engagement_score := pyRound2 engagement_score
    priority := pyLower priority }

/-- The sort key of `score_companies`:
`c.score.total_score if c.score else 0`. -/
def score_val (c : Company) : ℚ :=
  match c.score with
  | some s => s.total_score
  | none => 0

/-- `company.score = self.score(company)` applied to one company. -/
def assign_score (c : Company) : Company := { c with score := some (score c) }

/-- `LeadScorer.score_companies` (src/scoring/lead_scorer.py 239-258): attach a
score to every company, then stably sort by total score, highest first
(`companies.sort(key=..., reverse=True)`). -/
def score_companies (companies : List Company) : List Company :=
  (companies.map assign_score).mergeSort (fun a b => decide (score_val b ≤ score_val a))

end LeadScorer

/-- Fit score as claim C8 words it: identical to `calculate_fit_score` except
that the employee-count bonus gives +5 for every count below 20. -/
def fit_score_claimed (company : Company) : ℚ :=
  match company.enrichment with
  | none => 50
  | some enrichment =>
    let score := size_scores enrichment.company_size
    let score := match enrichment.funding_info with
      | none => score
      | some fi => (score + funding_scores fi.stage) / 2
    let score := match enrichment.employee_count with
      | none => score
      | some n =>
        if 20 ≤ n ∧ n ≤ 500 then score + 10
        else if n < 20 then score + 5
        else score
    min score 100

/-- Fit score as amended: +10 for an employee count in [20,500], +5 for a
nonzero count below 20; a zero (falsy) count gets no bonus. -/
def fit_score_amended (company : Company) : ℚ :=
  match company.enrichment with
  | none => 50
  | some enrichment =>
    let score := size_scores enrichment.company_size
    let score := match enrichment.funding_info with
      | none => score
      | some fi => (score + funding_scores fi.stage) / 2
    let score := match enrichment.employee_count with
      | none => score
      | some n =>
        if 20 ≤ n ∧ n ≤ 500 then score + 10
        else if n ≠ 0 ∧ n < 20 then score + 5
        else score
    min score 100

/-- Tech score as claim C9 words it: each bonus fires iff a technology of the
allow-list is an element of the corresponding list. -/
def tech_score_claimed (company : Company) : ℚ :=
  match company.enrichment with
  | none => 0
  | some e =>
    match e.tech_stack with
    | none => 0
    | some ts =>
      min ((if !ts.all_technologies.isEmpty then (40 : ℚ) else 0) +
           (if modern_frameworks.any (fun t => ts.frameworks.contains t) then 20 else 0) +
           (if !ts.cloud_providers.isEmpty then 15 else 0) +
           (if modern_dbs.any (fun db => ts.databases.contains db) then 15 else 0) +
           (if !ts.analytics.isEmpty then 10 else 0)) 100

/-- Tech score as amended: the framework and database bonuses fire iff an
allow-list name occurs as a substring of the Python `str()` rendering of the
corresponding list. -/
def tech_score_amended (company : Company) : ℚ :=
  match company.enrichment with
  | none => 0
  | some e =>
    match e.tech_stack with
    | none => 0
    | some ts =>
      min ((if !ts.all_technologies.isEmpty then (40 : ℚ) else 0) +
           (if modern_frameworks.any (fun t => pyInStr t (pyStrList ts.frameworks)) then 20 else 0) +
           (if !ts.cloud_providers.isEmpty then 15 else 0) +
           (if modern_dbs.any (fun db => pyInStr db (pyStrList ts.databases)) then 15 else 0) +
           (if !ts.analytics.isEmpty then 10 else 0)) 100

/-! ### src/pipeline/deduplication.py -/

/-- Default `name_similarity_threshold` of `CompanyDeduplicator.__init__`. -/
def name_similarity_threshold : ℚ := 85/100

/-- The normalized domain the deduplicator computes for a record
(src/pipeline/deduplication.py 57-62): the lowercased `domain` field when that
field is truthy — note: no `www.` stripping on this path — otherwise
`extract_domain(str(company.website))` when a website is set. -/
def norm_domain (company : Company) : Option String :=
  if pyTruthy company.domain then pyLower <$> company.domain
  else if pyTruthy company.website then company.website.bind extract_domain
  else none

/-- `clean_company_name(company.name).lower()` as computed at
src/pipeline/deduplication.py line 70. -/
def dedup_clean_name (company : Company) : String :=
  pyLower (clean_company_name company.name)

/-- The loop of `CompanyDeduplicator.deduplicate`
(src/pipeline/deduplication.py 52-97): state is the set of seen domains (a
membership-only set, modelled as a list) and the list of seen cleaned names;
both are extended only when a record is kept. -/
def dedup_go (threshold : ℚ) (seen_domains seen_names : List String) :
    List Company → List Company
  | [] => []
  | company :: rest =>
    let domain := norm_domain company
    if (match domain with
        | some d => seen_domains.contains d
        | none => false) then
      dedup_go threshold seen_domains seen_names rest
    else
      let clean_name := dedup_clean_name company
      if seen_names.any (fun n =>
          decide (threshold ≤ calculate_similarity clean_name n)) then
        dedup_go threshold seen_domains seen_names rest
      else
        company :: dedup_go threshold (seen_domains ++ domain.toList)
          (seen_names ++ [clean_name]) rest

/-- `CompanyDeduplicator.deduplicate` (the `if not companies: return []` guard
is the empty case of the loop). -/
def deduplicate (threshold : ℚ) (companies : List Company) : List Company :=
  dedup_go threshold [] [] companies

/-- Deduplication transcribed from claim C2's words: a record is kept iff its
normalized domain (when it has one) is not the normalized domain of a
previously kept record, and its cleaned name is strictly below the similarity
threshold against the cleaned name of every previously kept record;
first-seen order is preserved. -/
def dedup_spec_go (threshold : ℚ) (kept : List Company) :
    List Company → List Company
  | [] => []
  | company :: rest =>
    let domain_dup :=
      match norm_domain company with
      | some d => kept.any (fun k => decide (norm_domain k = some d))
      | none => false
    let name_dup := kept.any (fun k =>
      decide (threshold ≤
        calculate_similarity (dedup_clean_name company) (dedup_clean_name k)))
    if domain_dup || name_dup then dedup_spec_go threshold kept rest
    else company :: dedup_spec_go threshold (kept ++ [company]) rest

def dedup_spec (threshold : ℚ) (companies : List Company) : List Company :=
  dedup_spec_go threshold [] companies

/-- The normalized domain as claim C5 words it: the lowercase host with no
leading `www.`, taken from the `domain` field when present, otherwise parsed
from the website URL. -/
def claim_norm_domain (company : Company) : Option String :=
  let stripWWW := fun (d : String) =>
    if "www.".toList.isPrefixOf d.toList then (d.toList.drop 4).asString else d
  match company.domain with
  | some d => if !d.toList.isEmpty then some (stripWWW (pyLower d)) else none
  | none =>
    match company.website with
    | some w => (extract_domain w).map (fun d => stripWWW (pyLower d))
    | none => none

/-! ### src/pipeline/orchestrator.py

Adapters are external collaborators; the orchestrator observes, per adapter,
either the `ScrapingResult` its `scrape` call returned or the exception it
raised (`future.result()` re-raises).  `as_completed` yields results in
completion order, which is nondeterministic; the aggregate theorems quantify
over permutations of the outcome list.  The enrichment stage is the identity
on the record list (`_enrich_all` mutates records in place and returns the
same list; no claim runs with enrichers). -/

/-- One adapter's outcome as the orchestrator observes it. -/
abbrev AdapterOutcome := Except String ScrapingResult

/-- The single log entry emitted for a batch with `success == False`
(src/pipeline/orchestrator.py 170-173). -/
def failed_batch_log (errors : List String) : String :=
  ("scraper failed: ".toList ++
    List.intercalate ", ".toList (errors.map String.toList)).asString

/-- The single synthesized log entry for an adapter whose call raised
(src/pipeline/orchestrator.py 175-178). -/
def exception_log (e : String) : String :=
  "Error scraping with scraper: " ++ e

/-- `PipelineOrchestrator._scrape_all_sources`
(src/pipeline/orchestrator.py 132-182): successful batches contribute their
records in order; a failed batch or a raising adapter contributes no records
and one error-log entry.  Returns (aggregated records, error log). -/
def scrape_step (acc : List Company × List String) (outcome : AdapterOutcome) :
    List Company × List String :=
  match outcome with
  | .ok result =>
    if result.success then (acc.1 ++ result.companies, acc.2)
    else (acc.1, acc.2 ++ [failed_batch_log result.errors])
  | .error e => (acc.1, acc.2 ++ [exception_log e])

def scrape_all_sources (outcomes : List AdapterOutcome) :
    List Company × List String :=
  outcomes.foldl scrape_step ([], [])

/-- Steps 1-2 of `PipelineOrchestrator.run` (src/pipeline/orchestrator.py
85-98): aggregate all sources, return `[]` when nothing was scraped, then
deduplicate (with the default threshold) when enabled. -/
def pre_scoring (enable_deduplication : Bool) (outcomes : List AdapterOutcome) :
    List Company :=
  let all_companies := (scrape_all_sources outcomes).1
  if all_companies.isEmpty then []
  else if enable_deduplication then
    deduplicate name_similarity_threshold all_companies
  else all_companies

/-- Steps 4-5 of `PipelineOrchestrator.run` (src/pipeline/orchestrator.py
106-123): score and sort when scoring is enabled and a scorer was supplied;
then, when scoring is enabled and `settings.min_score_threshold > 0`, keep
only records with a score at or above the threshold
(`c.score and c.score.total_score >= settings.min_score_threshold`). -/
def scoring_and_filter (enable_scoring use_scorer : Bool)
    (min_score_threshold : ℚ) (companies : List Company) : List Company :=
  let companies :=
    if enable_scoring && use_scorer then LeadScorer.score_companies companies
    else companies
  if enable_scoring && decide (0 < min_score_threshold) then
    companies.filter (fun c =>
      match c.score with
      | some s => decide (min_score_threshold ≤ s.total_score)
      | none => false)
  else companies

/-- `PipelineOrchestrator.run` (src/pipeline/orchestrator.py 61-130) as the
composition of its stages (the early `return []` on an empty aggregate is
preserved by `pre_scoring`; every later stage maps `[]` to `[]`). -/
def run (enable_deduplication enable_scoring use_scorer : Bool)
    (min_score_threshold : ℚ) (outcomes : List AdapterOutcome) : List Company :=
  scoring_and_filter enable_scoring use_scorer min_score_threshold
    (pre_scoring enable_deduplication outcomes)

/-! ### Deduplication lemmas -/

lemma contains_true_iff (l : List String) (d : String) :
    l.contains d = true ↔ d ∈ l := by
  simp [List.contains_eq_any_beq, List.any_eq_true]

lemma contains_false_iff (l : List String) (d : String) :
    l.contains d = false ↔ d ∉ l := by
  constructor
  · intro h hmem
    have := (contains_true_iff l d).mpr hmem
    rw [h] at this
    exact Bool.false_ne_true this
  · intro h
    cases hc : l.contains d
    · rfl
    · exact absurd ((contains_true_iff l d).mp hc) h

lemma contains_filterMap_domains (kept : List Company) (d : String) :
    (kept.filterMap norm_domain).contains d =
      kept.any (fun k => decide (norm_domain k = some d)) := by
  rw [Bool.eq_iff_iff, contains_true_iff]
  simp only [List.any_eq_true, List.mem_filterMap, decide_eq_true_eq]

lemma any_map_clean (kept : List Company) (p : String → Bool) :
    (kept.map dedup_clean_name).any p =
      kept.any (fun k => p (dedup_clean_name k)) := by
  rw [Bool.eq_iff_iff]
  simp only [List.any_eq_true, List.mem_map]
  constructor
  · rintro ⟨x, ⟨k, hk, rfl⟩, hx⟩
    exact ⟨k, hk, hx⟩
  · rintro ⟨k, hk, hx⟩
    exact ⟨dedup_clean_name k, ⟨k, hk, rfl⟩, hx⟩

lemma filterMap_singleton_domain (c : Company) :
    List.filterMap norm_domain [c] = (norm_domain c).toList := by
  cases h : norm_domain c <;> simp [List.filterMap_cons, h]

/-- The loop of `deduplicate`, started on the state generated by an arbitrary
already-kept list, coincides with the spec-side recursion of claim C2. -/
lemma dedup_go_eq_spec_go (threshold : ℚ) (cs : List Company) :
    ∀ kept : List Company,
      dedup_go threshold (kept.filterMap norm_domain)
          (kept.map dedup_clean_name) cs =
        dedup_spec_go threshold kept cs := by
  induction cs with
  | nil => intro kept; rfl
  | cons c rest ih =>
    intro kept
    simp only [dedup_go, dedup_spec_go]
    have hA : (match norm_domain c with
        | some d => (kept.filterMap norm_domain).contains d
        | none => false) =
        (match norm_domain c with
        | some d => kept.any (fun k => decide (norm_domain k = some d))
        | none => false) := by
      cases norm_domain c with
      | none => rfl
      | some d => exact contains_filterMap_domains kept d
    have hB : (kept.map dedup_clean_name).any (fun n =>
        decide (threshold ≤ calculate_similarity (dedup_clean_name c) n)) =
        kept.any (fun k => decide (threshold ≤
          calculate_similarity (dedup_clean_name c) (dedup_clean_name k))) :=
      any_map_clean kept _
    rw [hA, hB]
    cases hdom : (match norm_domain c with
        | some d => kept.any (fun k => decide (norm_domain k = some d))
        | none => false) with
    | true => simp [ih kept]
    | false =>
      cases hname : kept.any (fun k => decide (threshold ≤
          calculate_similarity (dedup_clean_name c) (dedup_clean_name k))) with
      | true => simp [ih kept]
      | false =>
        simp only [Bool.false_or, Bool.false_eq_true, if_false]
        congr 1
        have := ih (kept ++ [c])
        rw [List.filterMap_append, List.map_append,
          filterMap_singleton_domain] at this
        exact this

lemma dedup_go_sublist (threshold : ℚ) :
    ∀ (cs : List Company) (doms names : List String),
      (dedup_go threshold doms names cs).Sublist cs := by
  intro cs
  induction cs with
  | nil => intro doms names; exact List.Sublist.refl _
  | cons c rest ih =>
    intro doms names
    simp only [dedup_go]
    split
    · exact (ih _ _).cons c
    · split
      · exact (ih _ _).cons c
      · exact (ih _ _).cons₂ c

/-- A record kept by the loop collides with nothing in the state the loop was
started with: its domain is not among the seen domains, and its cleaned name
is strictly below the threshold against every seen name. -/
lemma dedup_go_mem_not_seen (threshold : ℚ) :
    ∀ (cs : List Company) (doms names : List String) (c : Company),
      c ∈ dedup_go threshold doms names cs →
        (∀ d, norm_domain c = some d → d ∉ doms) ∧
        (∀ n ∈ names, calculate_similarity (dedup_clean_name c) n < threshold) := by
  intro cs
  induction cs with
  | nil =>
    intro doms names c h
    simp [dedup_go] at h
  | cons c0 rest ih =>
    intro doms names c h
    simp only [dedup_go] at h
    split at h
    · exact ih _ _ _ h
    · rename_i hdomFalse
      split at h
      · exact ih _ _ _ h
      · rename_i hnameFalse
        rcases List.mem_cons.mp h with rfl | hmem
        · constructor
          · intro d hd hmemd
            rw [hd] at hdomFalse
            exact hdomFalse ((contains_true_iff doms d).mpr hmemd)
          · intro n hn
            rw [List.any_eq_true] at hnameFalse
            push_neg at hnameFalse
            have := hnameFalse n hn
            simp only [ne_eq, decide_eq_true_eq] at this
            exact lt_of_not_le this
        · obtain ⟨h1, h2⟩ := ih _ _ _ hmem
          constructor
          · intro d hd hmemd
            exact h1 d hd (List.mem_append_left _ hmemd)
          · intro n hn
            exact h2 n (List.mem_append_left _ hn)

/-- The pairwise relation every deduplicated output satisfies: a later kept
record shares no normalized domain with an earlier one, and its cleaned name
is strictly below the threshold against the earlier one's cleaned name (in
the comparison direction the loop performs). -/
def DedupRel (threshold : ℚ) (a b : Company) : Prop :=
  (∀ d, norm_domain a = some d → norm_domain b ≠ some d) ∧
    calculate_similarity (dedup_clean_name b) (dedup_clean_name a) < threshold

lemma dedup_go_pairwise (threshold : ℚ) :
    ∀ (cs : List Company) (doms names : List String),
      (dedup_go threshold doms names cs).Pairwise (DedupRel threshold) := by
  intro cs
  induction cs with
  | nil => intro doms names; simp [dedup_go]
  | cons c0 rest ih =>
    intro doms names
    simp only [dedup_go]
    split
    · exact ih _ _
    · split
      · exact ih _ _
      · refine List.pairwise_cons.mpr ⟨?_, ih _ _⟩
        intro b hb
        obtain ⟨hb1, hb2⟩ := dedup_go_mem_not_seen threshold rest _ _ b hb
        constructor
        · intro d hd0 hbd
          have := hb1 d hbd
          apply this
          apply List.mem_append_right
          rw [hd0]
          exact List.mem_singleton.mpr rfl
        · exact hb2 (dedup_clean_name c0)
            (List.mem_append_right _ (List.mem_singleton.mpr rfl))

/-- A list already satisfying the pairwise dedup relation, run against a state
it nowhere collides with, passes through the loop unchanged. -/
lemma dedup_go_eq_self (threshold : ℚ) :
    ∀ (cs : List Company) (doms names : List String),
      (∀ c ∈ cs, ∀ d, norm_domain c = some d → d ∉ doms) →
      (∀ c ∈ cs, ∀ n ∈ names,
        calculate_similarity (dedup_clean_name c) n < threshold) →
      cs.Pairwise (DedupRel threshold) →
      dedup_go threshold doms names cs = cs := by
  intro cs
  induction cs with
  | nil => intro doms names _ _ _; rfl
  | cons c0 rest ih =>
    intro doms names hdoms hnames hpw
    obtain ⟨hhead, htail⟩ := List.pairwise_cons.mp hpw
    simp only [dedup_go]
    have hdomFalse : (match norm_domain c0 with
        | some d => doms.contains d
        | none => false) = false := by
      cases hnd : norm_domain c0 with
      | none => rfl
      | some d =>
        exact (contains_false_iff doms d).mpr
          (hdoms c0 (List.mem_cons_self c0 rest) d hnd)
    have hnameFalse : (names.any (fun n => decide (threshold ≤
        calculate_similarity (dedup_clean_name c0) n))) = false := by
      rw [Bool.eq_false_iff]
      intro hcon
      rw [List.any_eq_true] at hcon
      obtain ⟨n, hn, hle⟩ := hcon
      simp only [decide_eq_true_eq] at hle
      exact absurd hle (not_le.mpr
        (hnames c0 (List.mem_cons_self c0 rest) n hn))
    rw [hdomFalse, hnameFalse]
    simp only [Bool.false_eq_true, if_false]
    congr 1
    apply ih
    · intro c hc d hd
      intro hmemd
      rcases List.mem_append.mp hmemd with hl | hr
      · exact hdoms c (List.mem_cons_of_mem _ hc) d hd hl
      · cases hnd0 : norm_domain c0 with
        | none => rw [hnd0] at hr; exact absurd hr (List.not_mem_nil d)
        | some d0 =>
          rw [hnd0] at hr
          have hdd0 : d = d0 := List.mem_singleton.mp hr
          exact (hhead c hc).1 d0 hnd0 (hdd0 ▸ hd)
    · intro c hc n hn
      rcases List.mem_append.mp hn with hl | hr
      · exact hnames c (List.mem_cons_of_mem _ hc) n hl
      · rw [List.mem_singleton.mp hr]
        exact (hhead c hc).2
    · exact htail

/-- C2: `deduplicate` keeps a record iff its normalized domain (when present)
is not that of a previously kept record and its cleaned name is strictly below
the similarity threshold against every previously kept record's cleaned name
(`dedup_spec` transcribes exactly this); the output is a sublist of the input,
so first-seen order is preserved and the earliest record with a given identity
wins. -/
theorem deduplicate_eq_spec_and_ordered (threshold : ℚ) (companies : List Company) :
    deduplicate threshold companies = dedup_spec threshold companies ∧
      (deduplicate threshold companies).Sublist companies := by
  constructor
  · have := dedup_go_eq_spec_go threshold companies []
    simpa [deduplicate, dedup_spec] using this
  · exact dedup_go_sublist threshold companies [] []

/-- C6: `deduplicate` is idempotent. -/
theorem deduplicate_idempotent (threshold : ℚ) (companies : List Company) :
    deduplicate threshold (deduplicate threshold companies) =
      deduplicate threshold companies := by
  unfold deduplicate
  apply dedup_go_eq_self
  · intro c _ d _
    exact List.not_mem_nil d
  · intro c _ n hn
    exact absurd hn (List.not_mem_nil n)
  · exact dedup_go_pairwise threshold companies [] []

/-- C5 (amended): the output of `deduplicate` is no longer than its input, and
no two output records share a normalized domain in the sense the code computes
it — the lowercased `domain` field as-is (no `www.` stripping on that path),
else the `www.`-stripped host of the website URL. -/
theorem deduplicate_no_shared_domain (threshold : ℚ) (companies : List Company) :
    (deduplicate threshold companies).length ≤ companies.length ∧
      (deduplicate threshold companies).Pairwise
        (fun a b => ∀ d, norm_domain a = some d → norm_domain b ≠ some d) := by
  constructor
  · exact (dedup_go_sublist threshold companies [] []).length_le
  · exact (dedup_go_pairwise threshold companies [] []).imp (fun h => h.1)

/-- A record whose `domain` field carries a `www.` host: the deduplicator
lowercases the field but strips no `www.` prefix from it. -/
def companyAlphaWWW : Company := { name := "Alpha", domain := some "www.example.com" }

/-- A record with the same host without the `www.` prefix. -/
def companyZebraBare : Company := { name := "Zebra", domain := some "example.com" }

/-- C5 (counterexample): under the claim's notion of normalized domain
(lowercase host, no leading `www.`) these two records share the domain
`example.com`, yet `deduplicate` keeps both — the code never strips `www.`
from the `domain` field, so the claim as stated is false. -/
lemma similarity_zebra_alpha : calculate_similarity "zebra" "alpha" = 1/5 := by
  have hM : matchingTotal "zebra".toList "alpha".toList = 1 := by decide
  have hT : "zebra".toList.length + "alpha".toList.length = 10 := by decide
  simp only [calculate_similarity, hM, hT]
  norm_num

theorem deduplicate_shared_claim_domain_counterexample :
    deduplicate name_similarity_threshold [companyAlphaWWW, companyZebraBare] =
        [companyAlphaWWW, companyZebraBare] ∧
      claim_norm_domain companyAlphaWWW = some "example.com" ∧
      claim_norm_domain companyZebraBare = some "example.com" ∧
      companyAlphaWWW ≠ companyZebraBare := by
  refine ⟨?_, by decide, by decide, by decide⟩
  have hndA : norm_domain companyAlphaWWW = some "www.example.com" := by decide
  have hndB : norm_domain companyZebraBare = some "example.com" := by decide
  have hcmp : decide (name_similarity_threshold ≤
      calculate_similarity (dedup_clean_name companyZebraBare)
        (dedup_clean_name companyAlphaWWW)) = false := by
    apply decide_eq_false
    have hclA : dedup_clean_name companyAlphaWWW = "alpha" := by decide
    have hclB : dedup_clean_name companyZebraBare = "zebra" := by decide
    rw [hclA, hclB, similarity_zebra_alpha]
    norm_num [name_similarity_threshold]
  have hc0 : ∀ d : String, List.contains ([] : List String) d = false := fun _ => rfl
  have hc3 : List.contains ["www.example.com"] "example.com" = false := by decide
  show dedup_go _ [] [] _ = _
  simp only [dedup_go, hndA, hndB, hc0, hc3, List.any_nil, List.nil_append,
    Option.toList_some, List.any_cons, Bool.or_false, hcmp,
    Bool.false_eq_true, if_false]

/-! ### Scorer lemmas -/

/-- The `score += bonus`-under-condition shape used throughout the component
calculators preserves nonnegativity. -/
lemma ite_add_nonneg {c : Prop} [Decidable c] {s x : ℚ} (hs : 0 ≤ s)
    (hx : c → 0 ≤ x) : 0 ≤ if c then s + x else s := by
  split_ifs with h
  · exact add_nonneg hs (hx h)
  · exact hs

lemma intent_score_nonneg (company : Company) :
    0 ≤ calculate_intent_score company := by
  unfold calculate_intent_score
  split
  · norm_num
  · split
    · norm_num
    · refine le_min ?_ (by norm_num)
      split_ifs <;>
        (repeat' apply add_nonneg) <;>
        first
          | exact le_min (mul_nonneg (Int.cast_nonneg.mpr (le_of_lt (by assumption)))
              (by norm_num)) (by norm_num)
          | exact le_min (mul_nonneg (le_of_lt (by assumption)) (by norm_num)) (by norm_num)
          | norm_num

lemma intent_score_le (company : Company) :
    calculate_intent_score company ≤ 100 := by
  unfold calculate_intent_score
  split
  · norm_num
  · split
    · norm_num
    · exact min_le_right _ _

lemma fit_score_nonneg (company : Company) : 0 ≤ calculate_fit_score company := by
  unfold calculate_fit_score
  split
  · norm_num
  · rename_i e heq
    refine le_min ?_ (by norm_num)
    have hsize : 0 ≤ size_scores e.company_size := by
      cases e.company_size <;> norm_num [size_scores]
    have hbase : 0 ≤ (match e.funding_info with
        | none => size_scores e.company_size
        | some fi => (size_scores e.company_size + funding_scores fi.stage) / 2) := by
      split
      · exact hsize
      · rename_i fi hfi
        have hf : 0 ≤ funding_scores fi.stage := by
          cases fi.stage <;> norm_num [funding_scores]
        linarith
    split
    · exact hbase
    · split_ifs <;> linarith

lemma fit_score_le (company : Company) : calculate_fit_score company ≤ 100 := by
  unfold calculate_fit_score
  split
  · norm_num
  · exact min_le_right _ _

lemma tech_score_nonneg (company : Company) : 0 ≤ calculate_tech_score company := by
  unfold calculate_tech_score
  split
  · norm_num
  · split
    · norm_num
    · refine le_min ?_ (by norm_num)
      split_ifs <;> norm_num

lemma tech_score_le (company : Company) : calculate_tech_score company ≤ 100 := by
  unfold calculate_tech_score
  split
  · norm_num
  · split
    · norm_num
    · exact min_le_right _ _

lemma engagement_score_nonneg (company : Company) :
    0 ≤ calculate_engagement_score company := by
  unfold calculate_engagement_score
  split_ifs <;> split <;>
    first
      | (refine le_min ?_ (by norm_num); split <;> (try split_ifs) <;> norm_num)
      | norm_num

lemma engagement_score_le (company : Company) :
    calculate_engagement_score company ≤ 100 := by
  unfold calculate_engagement_score
  split_ifs <;> split <;>
    first
      | exact min_le_right _ _
      | norm_num

lemma roundHalfEven_intCast (n : ℤ) : roundHalfEven ((n : ℚ)) = n := by
  unfold roundHalfEven
  rw [Int.floor_intCast]
  norm_num

lemma pyRound2_eq_of_int (q : ℚ) (n : ℤ) (h : q * 100 = (n : ℚ)) :
    pyRound2 q = (n : ℚ) / 100 := by
  unfold pyRound2
  rw [h, roundHalfEven_intCast]

/-- C10: constructing a `LeadScore` fails with a validation error whenever one
of the four scores is outside [0,100] or the priority does not lowercase into
{low, medium, high}; an accepted construction stores every score rounded to 2
decimals and the priority lowercased. -/
theorem leadscore_validate_characterization
    (total_score intent_score fit_score engagement_score : ℚ) (priority : String) :
    ((¬(0 ≤ total_score ∧ total_score ≤ 100) ∨
      ¬(0 ≤ intent_score ∧ intent_score ≤ 100) ∨
      ¬(0 ≤ fit_score ∧ fit_score ≤ 100) ∨
      ¬(0 ≤ engagement_score ∧ engagement_score ≤ 100) ∨
      ¬(pyLower priority = "low" ∨ pyLower priority = "medium" ∨
        pyLower priority = "high")) →
      ∃ msg, LeadScore.validate total_score intent_score fit_score
        engagement_score priority = Except.error msg) ∧
    (∀ ls, LeadScore.validate total_score intent_score fit_score
        engagement_score priority = Except.ok ls →
      ls.total_score = pyRound2 total_score ∧
      ls.intent_score = pyRound2 intent_score ∧
      ls.fit_score = pyRound2 fit_score ∧
      ls.engagement_score = pyRound2 engagement_score ∧
      ls.priority = pyLower priority ∧
      (pyLower priority = "low" ∨ pyLower priority = "medium" ∨
        pyLower priority = "high")) := by
  unfold LeadScore.validate
  split_ifs with h1 h2 h3 h4 h5 <;>
    refine ⟨fun hbad => ?_, fun ls h => ?_⟩ <;>
    first
      | exact ⟨_, rfl⟩
      | (injection h with h6; subst h6; exact ⟨rfl, rfl, rfl, rfl, rfl, by tauto⟩)
      | (injection h)
      | tauto

/-- Witness for C10: a concrete rejected construction (total 150) and a
concrete accepted construction with an uppercase priority. -/
theorem leadscore_validate_witness :
    (∃ msg, LeadScore.validate 150 0 0 0 "low" = Except.error msg) ∧
      LeadScore.validate 80 70 90 50 "HIGH" =
        Except.ok { total_score := 80, intent_score := 70, fit_score := 90,
                    engagement_score := 50, priority := "high" } := by
  refine ⟨(leadscore_validate_characterization 150 0 0 0 "low").1
      (Or.inl (by norm_num)), ?_⟩
  have hok : LeadScore.validate 80 70 90 50 "HIGH" =
      Except.ok { total_score := pyRound2 80, intent_score := pyRound2 70,
                  fit_score := pyRound2 90, engagement_score := pyRound2 50,
                  priority := pyLower "HIGH" } := by
    unfold LeadScore.validate
    rw [if_neg (by norm_num), if_neg (by norm_num), if_neg (by norm_num),
      if_neg (by norm_num), if_neg (by decide)]
  rw [hok]
  congr 1
  rw [pyRound2_eq_of_int 80 8000 (by norm_num), pyRound2_eq_of_int 70 7000 (by norm_num),
    pyRound2_eq_of_int 90 9000 (by norm_num), pyRound2_eq_of_int 50 5000 (by norm_num)]
  have : pyLower "HIGH" = "high" := by decide
  rw [this]
  norm_num

lemma raw_total_score_nonneg (company : Company) : 0 ≤ raw_total_score company := by
  unfold raw_total_score weights_intent weights_fit weights_tech weights_engagement
  nlinarith [intent_score_nonneg company, fit_score_nonneg company,
    tech_score_nonneg company, engagement_score_nonneg company]

lemma raw_total_score_le (company : Company) : raw_total_score company ≤ 100 := by
  unfold raw_total_score weights_intent weights_fit weights_tech weights_engagement
  nlinarith [intent_score_le company, fit_score_le company,
    tech_score_le company, engagement_score_le company,
    intent_score_nonneg company, fit_score_nonneg company,
    tech_score_nonneg company, engagement_score_nonneg company]

lemma pyLower_determine_priority (q : ℚ) :
    pyLower (determine_priority q) = determine_priority q := by
  unfold determine_priority
  split_ifs <;> decide

lemma determine_priority_mem (q : ℚ) :
    determine_priority q = "low" ∨ determine_priority q = "medium" ∨
      determine_priority q = "high" := by
  unfold determine_priority
  split_ifs <;> simp

/-- C1: for every company, each component score computed by the default-weight
scorer lies in [0,100]; the `LeadScore` construction passes pydantic
validation and stores the 2-decimal rounding of the weighted total
`0.35·intent + 0.30·fit + 0.20·tech + 0.15·engagement`; the stored priority is
the fixed 70/40 thresholding of the unrounded total, and the thresholds behave
exactly as claimed at the boundaries: 70 → high, 69.99 → medium, 40 → medium,
39.99 → low. -/
theorem scorer_components_total_priority (company : Company) :
    (0 ≤ calculate_intent_score company ∧ calculate_intent_score company ≤ 100) ∧
    (0 ≤ calculate_fit_score company ∧ calculate_fit_score company ≤ 100) ∧
    (0 ≤ calculate_tech_score company ∧ calculate_tech_score company ≤ 100) ∧
    (0 ≤ calculate_engagement_score company ∧
      calculate_engagement_score company ≤ 100) ∧
    raw_total_score company =
      35/100 * calculate_intent_score company +
        30/100 * calculate_fit_score company +
        20/100 * calculate_tech_score company +
        15/100 * calculate_engagement_score company ∧
    LeadScore.validate (raw_total_score company) (calculate_intent_score company)
        (calculate_fit_score company) (calculate_engagement_score company)
        (determine_priority (raw_total_score company)) =
      Except.ok (LeadScorer.score company) ∧
    (LeadScorer.score company).total_score = pyRound2 (raw_total_score company) ∧
    (LeadScorer.score company).priority =
      (if 70 ≤ raw_total_score company then "high"
       else if 40 ≤ raw_total_score company then "medium" else "low") ∧
    determine_priority 70 = "high" ∧
    determine_priority (6999/100) = "medium" ∧
    determine_priority 40 = "medium" ∧
    determine_priority (3999/100) = "low" := by
  refine ⟨⟨intent_score_nonneg company, intent_score_le company⟩,
    ⟨fit_score_nonneg company, fit_score_le company⟩,
    ⟨tech_score_nonneg company, tech_score_le company⟩,
    ⟨engagement_score_nonneg company, engagement_score_le company⟩,
    ?_, ?_, rfl, ?_, ?_, ?_, ?_, ?_⟩
  · unfold raw_total_score weights_intent weights_fit weights_tech weights_engagement
    ring
  · unfold LeadScore.validate
    rw [if_neg (not_not_intro ⟨raw_total_score_nonneg company,
          raw_total_score_le company⟩),
      if_neg (not_not_intro ⟨intent_score_nonneg company, intent_score_le company⟩),
      if_neg (not_not_intro ⟨fit_score_nonneg company, fit_score_le company⟩),
      if_neg (not_not_intro ⟨engagement_score_nonneg company,
        engagement_score_le company⟩),
      if_neg (not_not_intro ?_)]
    · rfl
    · rw [pyLower_determine_priority]
      exact determine_priority_mem _
  · rw [show (LeadScorer.score company).priority =
        pyLower (determine_priority (raw_total_score company)) from rfl,
      pyLower_determine_priority]
    rfl
  · norm_num [determine_priority]
  · norm_num [determine_priority]
  · norm_num [determine_priority]
  · norm_num [determine_priority]

/-- A record whose only data is a tech stack containing the single framework
string `AngularJS` (which is not one of the five allow-list names but contains
`Angular` as a substring). -/
def companyAngularJS : Company :=
  { name := "AngularCo",
    enrichment := some { tech_stack := some { frameworks := ["AngularJS"] } } }

/-- A record whose enrichment reports an employee count of exactly 0. -/
def companyZeroEmployees : Company :=
  { name := "ZeroCo", enrichment := some { employee_count := some 0 } }

/-- C7 (code evaluation): for `companyAngularJS` the tech component is 60 and
enters the weighted total (0.2·60 of the 24 total), but the attached
`LeadScore` consists of intent 0, fit 40, engagement 0, total 24 and priority
low — the tech component is not among the stored fields, because the
`LeadScore` model has no tech-score field at all. -/
theorem leadscore_missing_tech_component :
    calculate_tech_score companyAngularJS = 60 ∧
    LeadScorer.score companyAngularJS =
      { total_score := 24, intent_score := 0, fit_score := 40,
        engagement_score := 0, priority := "low" } ∧
    (60 : ℚ) ≠ 24 ∧ (60 : ℚ) ≠ 0 ∧ (60 : ℚ) ≠ 40 := by
  have hint : calculate_intent_score companyAngularJS = 0 := rfl
  have hfit : calculate_fit_score companyAngularJS = 40 := by
    show min (40 : ℚ) 100 = 40
    exact min_eq_left (by norm_num)
  have heng : calculate_engagement_score companyAngularJS = 0 := by
    show min (0 : ℚ) 100 = 0
    exact min_eq_left (by norm_num)
  have htech : calculate_tech_score companyAngularJS = 60 := by
    show min ((40 : ℚ) + 20) 100 = 60
    rw [min_eq_left (by norm_num)]
    norm_num
  have hraw : raw_total_score companyAngularJS = 24 := by
    unfold raw_total_score
    rw [hint, hfit, htech, heng]
    unfold weights_intent weights_fit weights_tech weights_engagement
    norm_num
  refine ⟨htech, ?_, by norm_num, by norm_num, by norm_num⟩
  have hscore : LeadScorer.score companyAngularJS =
      { total_score := pyRound2 (raw_total_score companyAngularJS),
        intent_score := pyRound2 (calculate_intent_score companyAngularJS),
        fit_score := pyRound2 (calculate_fit_score companyAngularJS),
        engagement_score := pyRound2 (calculate_engagement_score companyAngularJS),
        priority := pyLower (determine_priority (raw_total_score companyAngularJS)) } :=
    rfl
  rw [hscore, hraw, hint, hfit, heng]
  rw [pyRound2_eq_of_int 24 2400 (by norm_num), pyRound2_eq_of_int 0 0 (by norm_num),
    pyRound2_eq_of_int 40 4000 (by norm_num)]
  have hp : determine_priority (24 : ℚ) = "low" := by norm_num [determine_priority]
  rw [hp, show pyLower "low" = "low" from by decide]
  norm_num [LeadScore.mk.injEq]

/-- C8 (counterexample): a record whose employee count is exactly 0 gets no
employee bonus from the code (Python truthiness skips the branch), so its fit
score is 40, while the claim's "+5 if below 20" yields 45. -/
theorem fit_score_zero_employee_counterexample :
    calculate_fit_score companyZeroEmployees = 40 ∧
      fit_score_claimed companyZeroEmployees = 45 ∧
      calculate_fit_score companyZeroEmployees ≠
        fit_score_claimed companyZeroEmployees := by
  have h1 : calculate_fit_score companyZeroEmployees = 40 := by
    show min (40 : ℚ) 100 = 40
    exact min_eq_left (by norm_num)
  have h2 : fit_score_claimed companyZeroEmployees = 45 := by
    show min ((40 : ℚ) + 5) 100 = 45
    rw [min_eq_left (by norm_num)]
    norm_num
  exact ⟨h1, h2, by rw [h1, h2]; norm_num⟩

/-- C8 (amended): the fit score follows the claimed lookup-and-average formula
with the employee bonus amended to: +10 for a count in [20,500], +5 for a
nonzero count below 20, and no bonus for a zero (falsy) count. -/
theorem fit_score_matches_amended (company : Company) :
    calculate_fit_score company = fit_score_amended company := by
  simp only [calculate_fit_score, fit_score_amended]
  split
  · rfl
  · congr 1
    split
    · rfl
    · split_ifs <;> first | rfl | (exfalso; omega)

/-- C9 (counterexample): with frameworks `["AngularJS"]`, the code's substring
test against `str(frameworks)` finds `Angular` and awards the +20 bonus (tech
score 60), while the claim's allow-list membership test does not (tech score
40). -/
theorem tech_score_substring_counterexample :
    calculate_tech_score companyAngularJS = 60 ∧
      tech_score_claimed companyAngularJS = 40 ∧
      calculate_tech_score companyAngularJS ≠
        tech_score_claimed companyAngularJS := by
  have h1 : calculate_tech_score companyAngularJS = 60 := by
    show min ((40 : ℚ) + 20) 100 = 60
    rw [min_eq_left (by norm_num)]
    norm_num
  have h2 : tech_score_claimed companyAngularJS = 40 := by
    show min ((40 : ℚ) + 0 + 0 + 0 + 0) 100 = 40
    rw [min_eq_left (by norm_num)]
    norm_num
  exact ⟨h1, h2, by rw [h1, h2]; norm_num⟩

/-- C9 (amended): the tech score follows the claimed indicator-sum formula
with the framework and database bonuses amended to fire iff an allow-list
name occurs as a substring of the Python `str()` rendering of the
corresponding list. -/
theorem tech_score_matches_amended (company : Company) :
    calculate_tech_score company = tech_score_amended company := by
  simp only [calculate_tech_score, tech_score_amended]
  split
  · rfl
  · split
    · rfl
    · congr 1
      split_ifs <;> ring

/-! ### Orchestrator lemmas -/

/-- Number of records an adapter outcome contributes to the aggregate. -/
def outcome_record_count : AdapterOutcome → Nat
  | .ok r => if r.success then r.companies.length else 0
  | .error _ => 0

/-- Number of error-log entries an adapter outcome contributes. -/
def outcome_error_count : AdapterOutcome → Nat
  | .ok r => if r.success then 0 else 1
  | .error _ => 1

lemma scrape_fold_lengths (outcomes : List AdapterOutcome) :
    ∀ acc : List Company × List String,
      (outcomes.foldl scrape_step acc).1.length =
        acc.1.length + (outcomes.map outcome_record_count).sum ∧
      (outcomes.foldl scrape_step acc).2.length =
        acc.2.length + (outcomes.map outcome_error_count).sum := by
  induction outcomes with
  | nil => intro acc; simp
  | cons o rest ih =>
    intro acc
    simp only [List.foldl_cons, List.map_cons, List.sum_cons]
    obtain ⟨ha, hb⟩ := ih (scrape_step acc o)
    have hstep1 : (scrape_step acc o).1.length =
        acc.1.length + outcome_record_count o := by
      cases o with
      | ok r =>
        by_cases hs : r.success <;>
          simp [scrape_step, outcome_record_count, hs]
      | error e => simp [scrape_step, outcome_record_count]
    have hstep2 : (scrape_step acc o).2.length =
        acc.2.length + outcome_error_count o := by
      cases o with
      | ok r =>
        by_cases hs : r.success <;>
          simp [scrape_step, outcome_error_count, hs]
      | error e => simp [scrape_step, outcome_error_count]
    constructor
    · rw [ha, hstep1]; omega
    · rw [hb, hstep2]; omega

lemma scrape_all_sources_lengths (outcomes : List AdapterOutcome) :
    (scrape_all_sources outcomes).1.length =
      (outcomes.map outcome_record_count).sum ∧
    (scrape_all_sources outcomes).2.length =
      (outcomes.map outcome_error_count).sum := by
  have := scrape_fold_lengths outcomes ([], [])
  simpa [scrape_all_sources] using this

/-- C3: an orchestrator run over three adapters of which one raises or returns
a failed batch and the other two succeed with 5 and 7 records (in any
completion order) aggregates exactly 12 records before scoring, logs exactly
one error entry for the failed adapter, and the run does not fail — with the
later stages disabled it returns exactly the aggregate. -/
theorem orchestrator_partial_failure_isolation
    (outcomes : List AdapterOutcome) (failed : AdapterOutcome)
    (r1 r2 : ScrapingResult)
    (hperm : outcomes.Perm [failed, Except.ok r1, Except.ok r2])
    (hfail : (∃ e, failed = Except.error e) ∨
      (∃ r, failed = Except.ok r ∧ r.success = false))
    (h1 : r1.success = true) (h2 : r2.success = true)
    (hl1 : r1.companies.length = 5) (hl2 : r2.companies.length = 7) :
    (scrape_all_sources outcomes).1.length = 12 ∧
    (scrape_all_sources outcomes).2.length = 1 ∧
    run false false false 0 outcomes = (scrape_all_sources outcomes).1 := by
  have hcount : outcome_record_count failed = 0 ∧ outcome_error_count failed = 1 := by
    rcases hfail with ⟨e, rfl⟩ | ⟨r, rfl, hr⟩
    · exact ⟨rfl, rfl⟩
    · constructor <;> simp [outcome_record_count, outcome_error_count, hr]
  obtain ⟨hlen1, hlen2⟩ := scrape_all_sources_lengths outcomes
  have h12 : (scrape_all_sources outcomes).1.length = 12 := by
    rw [hlen1, (hperm.map outcome_record_count).sum_eq]
    simp only [List.map_cons, List.map_nil, List.sum_cons, List.sum_nil, hcount.1]
    simp [outcome_record_count, h1, h2, hl1, hl2]
  have hone : (scrape_all_sources outcomes).2.length = 1 := by
    rw [hlen2, (hperm.map outcome_error_count).sum_eq]
    simp only [List.map_cons, List.map_nil, List.sum_cons, List.sum_nil, hcount.2]
    simp [outcome_error_count, h1, h2]
  refine ⟨h12, hone, ?_⟩
  show scoring_and_filter false false 0 (pre_scoring false outcomes) = _
  have hne : ((scrape_all_sources outcomes).1).isEmpty = false := by
    cases hE : ((scrape_all_sources outcomes).1).isEmpty
    · rfl
    · exfalso
      have hnil := List.isEmpty_iff.mp hE
      rw [hnil] at h12
      simp at h12
  simp only [pre_scoring, hne, Bool.false_eq_true, if_false, scoring_and_filter,
    Bool.false_and]

/-- A successful batch of 5 records. -/
def sampleBatchA : ScrapingResult := { companies := List.replicate 5 { name := "A" } }

/-- A successful batch of 7 records. -/
def sampleBatchB : ScrapingResult := { companies := List.replicate 7 { name := "B" } }

/-- Three adapter outcomes: one raising adapter and the two successful batches. -/
def sampleOutcomes : List AdapterOutcome :=
  [Except.error "boom", Except.ok sampleBatchA, Except.ok sampleBatchB]

/-- Witness for C3: the concrete three-adapter run (one raising adapter, two
successful batches of 5 and 7 records). -/
theorem orchestrator_partial_failure_witness :
    (scrape_all_sources sampleOutcomes).1.length = 12 ∧
    (scrape_all_sources sampleOutcomes).2.length = 1 ∧
    run false false false 0 sampleOutcomes = (scrape_all_sources sampleOutcomes).1 :=
  orchestrator_partial_failure_isolation sampleOutcomes (Except.error "boom")
    sampleBatchA sampleBatchB (List.Perm.refl _) (Or.inl ⟨"boom", rfl⟩) rfl rfl
    (by simp [sampleBatchA]) (by simp [sampleBatchB])

/-- C4: with scoring enabled, a scorer supplied and a positive minimum-score
threshold, the scoring-and-filter stages return exactly the scored records
whose total score is at least the threshold, in descending total-score order;
with scoring disabled the stages are the identity regardless of the threshold,
so the run returns its pre-scoring list unchanged; and with a threshold set,
scoring enabled but no scorer supplied, every surviving record carries a
score. -/
theorem run_scoring_filter_characterization (companies : List Company) (t : ℚ)
    (ht : 0 < t) :
    (∀ c, c ∈ scoring_and_filter true true t companies ↔
      (c ∈ companies.map LeadScorer.assign_score ∧
        ∃ s, c.score = some s ∧ t ≤ s.total_score)) ∧
    (scoring_and_filter true true t companies).Pairwise
      (fun a b => LeadScorer.score_val b ≤ LeadScorer.score_val a) ∧
    (∀ (u : Bool) (t2 : ℚ) (cs2 : List Company),
      scoring_and_filter false u t2 cs2 = cs2) ∧
    (∀ (d u : Bool) (t2 : ℚ) (os : List AdapterOutcome),
      run d false u t2 os = pre_scoring d os) ∧
    (∀ c ∈ scoring_and_filter true false t companies, c.score ≠ none) := by
  have hdec : decide (0 < t) = true := decide_eq_true ht
  have hfilter : scoring_and_filter true true t companies =
      (LeadScorer.score_companies companies).filter (fun c =>
        match c.score with
        | some s => decide (t ≤ s.total_score)
        | none => false) := by
    simp [scoring_and_filter, hdec]
  refine ⟨?_, ?_, ?_, ?_, ?_⟩
  · intro c
    rw [hfilter, List.mem_filter]
    unfold LeadScorer.score_companies
    rw [List.mem_mergeSort]
    constructor
    · rintro ⟨hmem, hpass⟩
      refine ⟨hmem, ?_⟩
      cases hsc : c.score with
      | none => rw [hsc] at hpass; exact absurd hpass (by simp)
      | some s =>
        rw [hsc] at hpass
        exact ⟨s, rfl, of_decide_eq_true hpass⟩
    · rintro ⟨hmem, s, hs, hts⟩
      refine ⟨hmem, ?_⟩
      rw [hs]
      exact decide_eq_true hts
  · rw [hfilter]
    apply List.Pairwise.sublist (List.filter_sublist _)
    have hsorted := @List.sorted_mergeSort Company
      (fun a b => decide (LeadScorer.score_val b ≤ LeadScorer.score_val a))
      (fun a b c hab hbc => decide_eq_true
        (le_trans (of_decide_eq_true hbc) (of_decide_eq_true hab)))
      (fun a b => by
        rcases le_total (LeadScorer.score_val b) (LeadScorer.score_val a) with h | h
        · simp [decide_eq_true h]
        · simp [decide_eq_true h])
      (companies.map LeadScorer.assign_score)
    exact hsorted.imp (fun h => of_decide_eq_true h)
  · intro u t2 cs2
    rfl
  · intro d u t2 os
    rfl
  · intro c hc
    have hstage : scoring_and_filter true false t companies =
        companies.filter (fun c =>
          match c.score with
          | some s => decide (t ≤ s.total_score)
          | none => false) := by
      simp [scoring_and_filter, hdec]
    rw [hstage, List.mem_filter] at hc
    obtain ⟨_, hpass⟩ := hc
    intro hnone
    rw [hnone] at hpass
    exact absurd hpass (by simp)

/-- Witness for C4: a concrete instantiation at the claim's threshold of 50,
and the scoring-disabled no-op at threshold 50 on a singleton. -/
theorem run_scoring_filter_witness :
    (0 : ℚ) < 50 ∧
      scoring_and_filter false true 50 [companyAngularJS] = [companyAngularJS] :=
  ⟨by norm_num,
    (run_scoring_filter_characterization [] 50 (by norm_num)).2.2.1 true 50
      [companyAngularJS]⟩

end OpenLead
